import Mathlib

/-!
Verification development for the hasdrubal compiler (hanno repository).

Each Python source construct relevant to the checked claims is embedded
shallowly: pure functions become Lean functions, the in-place visitor
passes become explicit state-passing functions, Python dictionaries
become insertion-ordered association lists, exceptions become `Except`
or result inductives, and potentially non-terminating recursions carry
an explicit fuel parameter.

Modules of the repository that are only referenced (asts/base.py,
ast_.py, scope.py, lex/main.py, lex/tokens.py) are modelled from the
specification; each such definition is marked `Modelled from the spec:`
in its doc comment.  Everything else is translated directly from the
Python sources under src/hasdrubal.
-/

set_option maxRecDepth 4000

/-! ## String escape expansion (src/hasdrubal/visitors/string_expander.py) -/

/-- Modelled from the spec: `\/` expands to the host path separator
(`os.path.sep`); the model fixes the POSIX separator. -/
def pathSeparator : String := "/"

/-- The character class of the `special` alternative of `ESCAPE_PATTERN`
(string_expander.py lines 9-17): `\\[abfnrvt/'"\\]`. -/
def specialChars : List Char := ['a', 'b', 'f', 'n', 'r', 'v', 't', '/', '\x27', '"', '\\']

/-- The `SPECIAL_ESCAPES` table (string_expander.py lines 19-31), as the
expansion of the character following the backslash. -/
def specialExpansion (c : Char) : String :=
  if c = 'a' then "\x07"
  else if c = 'b' then "\x08"
  else if c = 'f' then "\x0C"
  else if c = 'n' then "\n"
  else if c = 'r' then "\x0D"
  else if c = 'v' then "\x0B"
  else if c = 't' then "\t"
  else if c = '\x27' then "\x27"
  else if c = '"' then "\""
  else if c = '\\' then "\\"
  else if c = '/' then pathSeparator
  else String.mk ['\\', c]

/-- The regex character class `[0-9A-Fa-f]` used by the hex alternatives. -/
def isHexDig (c : Char) : Bool :=
  c.isDigit || ('a' ≤ c && c ≤ 'f') || ('A' ≤ c && c ≤ 'F')

/-- Numeric value of a hex digit. -/
def hexVal (c : Char) : Nat :=
  if c.isDigit then c.toNat - 48
  else if 'a' ≤ c then c.toNat - 87
  else c.toNat - 55

/-- One attempt of `ESCAPE_PATTERN` at the current position: the four
alternatives `special`, `one_byte`, `two_byte`, `three_byte` are tried
in the order they appear in the pattern (string_expander.py lines 9-17).
Returns the replacement text (per `process_match`, lines 139-166) and
the remaining characters after the match. -/
def matchEscape (cs : List Char) : Option (String × List Char) :=
  match cs with
  | c0 :: c :: rest =>
    if c0 = '\\' then
      if specialChars.contains c then some (specialExpansion c, rest)
      else if isHexDig c then
        match rest with
        | d :: rest2 =>
          if isHexDig d then
            some (String.singleton (Char.ofNat (16 * hexVal c + hexVal d)), rest2)
          else none
        | [] => none
      else if c = 'u' then
        match rest with
        | d1 :: d2 :: d3 :: d4 :: rest2 =>
          if isHexDig d1 && isHexDig d2 && isHexDig d3 && isHexDig d4 then
            some (String.singleton (Char.ofNat
              (4096 * hexVal d1 + 256 * hexVal d2 + 16 * hexVal d3 + hexVal d4)), rest2)
          else none
        | _ => none
      else if c = 'U' then
        match rest with
        | d1 :: d2 :: d3 :: d4 :: d5 :: d6 :: rest2 =>
          if isHexDig d1 && isHexDig d2 && isHexDig d3 && isHexDig d4
              && isHexDig d5 && isHexDig d6 then
            some (String.singleton (Char.ofNat
              (1048576 * hexVal d1 + 65536 * hexVal d2 + 4096 * hexVal d3
                + 256 * hexVal d4 + 16 * hexVal d5 + hexVal d6)), rest2)
          else none
        | _ => none
      else none
    else none
  | _ => none

/-- Whether `ESCAPE_PATTERN.finditer` would find a match anywhere in `cs`. -/
def hasMatch : List Char → Bool
  | [] => false
  | c :: rest => (matchEscape (c :: rest)).isSome || hasMatch rest

/-- The loop of `expand_string` (string_expander.py lines 127-136): the
text between matches is kept only when a later match exists, because the
function appends `string[prev_end:start]` before each match but never
appends the tail `string[prev_end:]` after the final match. -/
def expandGo : Nat → List Char → String
  | 0, _ => ""
  | _, [] => ""
  | fuel + 1, c :: rest =>
    match matchEscape (c :: rest) with
    | some (exp, remaining) => exp ++ expandGo fuel remaining
    | none => if hasMatch rest then String.singleton c ++ expandGo fuel rest else ""

/-- `expand_string` (string_expander.py lines 112-136). -/
def expandString (s : String) : String :=
  expandGo s.length s.data

/-! ## Surface AST (asts/base.py is absent from src) -/

/-- Modelled from the spec: every node carries a source span
`(start_offset, end_offset)` in bytes. -/
def Span : Type := Nat × Nat
deriving DecidableEq, Repr

/-- Modelled from the spec: a `Scalar` value is a tagged literal of kind
`Bool | Int | Float | String`; the float payload is kept opaque as its
literal text because no claim inspects it. -/
inductive ScalarVal where
  | bool (b : Bool)
  | int (i : Int)
  | float (text : String)
  | str (s : String)
deriving DecidableEq, Repr

/-- Modelled from the spec: `kind ∈ {List, Tuple}` for `Vector` nodes. -/
inductive VectorType where
  | list
  | tuple
deriving DecidableEq, Repr

/-- Modelled from the spec: the surface AST of asts/base.py (the module
itself is absent from src), with the eight node kinds of §3.1; `Define`
has an optional inline body that defaults to absent. -/
inductive BNode where
  | scalar (span : Span) (value : ScalarVal)
  | name (span : Span) (text : String)
  | vector (span : Span) (vecType : VectorType) (elements : List BNode)
  | cond (span : Span) (pred : BNode) (cons : BNode) (else_ : BNode)
  | function (span : Span) (param : BNode) (body : BNode)
  | funcCall (span : Span) (caller : BNode) (callee : BNode)
  | define (span : Span) (target : BNode) (value : BNode) (body : Option BNode)
  | block (span : Span) (body : List BNode)
deriving Repr

mutual

/-- The `StringExpander` visitor (string_expander.py lines 52-109).
`visit_define` (lines 72-77) constructs the new `Define` from only the
span, target and value, so the optional body is dropped (the base
constructor defaults it to absent). -/
def expandNode : BNode → BNode
  | .scalar sp v =>
    match v with
    | .str s => .scalar sp (.str (expandString s))
    | v => .scalar sp v
  | .name sp t => .name sp t
  | .vector sp vt elems => .vector sp vt (expandNodeList elems)
  | .cond sp p c e => .cond sp (expandNode p) (expandNode c) (expandNode e)
  | .function sp p b => .function sp (expandNode p) (expandNode b)
  | .funcCall sp caller callee => .funcCall sp (expandNode caller) (expandNode callee)
  | .define sp t v _ => .define sp (expandNode t) (expandNode v) none
  | .block sp body => .block sp (expandNodeList body)

/-- List traversal helper for `expandNode`. -/
def expandNodeList : List BNode → List BNode
  | [] => []
  | x :: xs => expandNode x :: expandNodeList xs

end

/-! ## Lowered AST (src/hasdrubal/asts/lowered.py) -/

/-- The `OperationTypes` enumeration (lowered.py lines 15-28). -/
inductive OperationTypes where
  | add
  | div
  | equal
  | exp
  | greater
  | join
  | less
  | mul
  | neg
  | sub
deriving DecidableEq, Repr

/-- The string value of each `OperationTypes` member (lowered.py lines 19-28). -/
def OperationTypes.value : OperationTypes → String
  | .add => "+"
  | .div => "/"
  | .equal => "="
  | .exp => "^"
  | .greater => ">"
  | .join => "<>"
  | .less => "<"
  | .mul => "*"
  | .neg => "~"
  | .sub => "-"

/-- The lowered AST (lowered.py; the base node kinds re-exported on
lines 7-12 are modelled from the spec).  The `args` attribute of
`FuncCall` is untyped in Python, so it is embedded as a sum: a single
node or a materialized list. -/
inductive LNode where
  | scalar (span : Span) (value : ScalarVal)
  | name (span : Span) (text : String)
  | vector (span : Span) (vecType : VectorType) (elements : List LNode)
  | cond (span : Span) (pred : LNode) (cons : LNode) (else_ : LNode)
  | define (span : Span) (target : LNode) (value : LNode) (body : Option LNode)
  | block (span : Span) (body : List LNode)
  | funcCall (span : Span) (func : LNode) (args : LNode ⊕ List LNode)
  | function (span : Span) (params : List LNode) (body : LNode)
  | nativeOperation (span : Span) (op : OperationTypes) (left : LNode) (right : Option LNode)
deriving Repr

/-- `FuncCall.__init__` (lowered.py lines 31-37): `self.func = func` and
`self.args = func` — the `args` parameter is never stored. -/
def mkFuncCall (span : Span) (func : LNode) (args : List LNode) : LNode :=
  let _ := args
  .funcCall span func (Sum.inl func)

/-- The `args` attribute of a lowered `FuncCall` node. -/
def LNode.argsAttr : LNode → Option (LNode ⊕ List LNode)
  | .funcCall _ _ a => some a
  | _ => none

/-- The `func` attribute of a lowered `FuncCall` node. -/
def LNode.funcAttr : LNode → Option LNode
  | .funcCall _ f _ => some f
  | _ => none

/-! ## Compilation pipeline (src/hasdrubal/run.py) -/

/-- The passes that `generate_tasks` can schedule (run.py lines 44-77),
plus `expandStrings` (visitors/string_expander.py `expand_strings`),
which the spec places in the pipeline. -/
inductive Pass where
  | normaliseNewlines
  | lexPass
  | inferEols
  | tokenStream
  | parsePass
  | resolveTypeVars
  | inlineFunctions
  | topologicalSort
  | doNothing
  | inferTypesPass
  | simplify
  | foldConstants
  | toBytecode
  | compressPass
  | expandStrings
deriving DecidableEq, Repr

/-- The driver flags consulted by `generate_tasks` (args.py ConfigData). -/
structure ConfigData where
  showTokens : Bool
  showAst : Bool
  showTypes : Bool
  sortDefs : Bool
  compress : Bool
deriving DecidableEq, Repr

/-- The `before`/`main`/`after` callables of one phase (run.py PhaseData). -/
structure PhaseData where
  before : List Pass
  mainPass : Pass
  after : List Pass
deriving DecidableEq, Repr

/-- `generate_tasks` (run.py lines 43-77), restricted to the pass
schedule; the four phases are listed in the order `run_code` runs them
(run.py line 134). -/
def generateTasks (c : ConfigData) : List PhaseData :=
  [ ⟨[.normaliseNewlines], .lexPass, [.inferEols]⟩,
    ⟨[.tokenStream], .parsePass, []⟩,
    ⟨[.resolveTypeVars, .inlineFunctions,
        if c.sortDefs then .topologicalSort else .doNothing],
      .inferTypesPass, []⟩,
    ⟨[.simplify, .foldConstants], .toBytecode,
      [if c.compress then .compressPass else .doNothing]⟩ ]

/-- Passes of one phase in execution order: `build_phase_runner` pipes
`before`, then `main`, then `after` (run.py lines 97-103). -/
def phasePasses (p : PhaseData) : List Pass :=
  p.before ++ [p.mainPass] ++ p.after

/-- The full pass sequence a compilation executes (run.py `run_code`). -/
def pipelinePasses (c : ConfigData) : List Pass :=
  (generateTasks c).foldr (fun p acc => phasePasses p ++ acc) []

/-! ## Tokens and EOL inference (src/hasdrubal/lex/eol_inference.py) -/

/-- Modelled from the spec: the members of `TokenTypes` (lex/tokens.py is
absent from src) that eol_inference.py names; Lean keywords get a
trailing underscore. -/
inductive TokenTypes where
  | bslash
  | comment
  | end_
  | eof
  | eol
  | false_
  | float_
  | if_
  | integer
  | lbracket
  | let_
  | lparen
  | name_
  | not_
  | rbracket
  | rparen
  | string
  | tilde
  | true_
  | whitespace
deriving DecidableEq, Repr

/-- Modelled from the spec: a token is its span, its type and an
optional text value (lex/main.py is absent from src). -/
structure Token where
  span : Span
  type_ : TokenTypes
  value : Option String
deriving DecidableEq, Repr

/-- `OPENERS` (eol_inference.py line 6). -/
def OPENERS : List TokenTypes := [.lbracket, .lparen]

/-- `CLOSERS` (eol_inference.py line 7). -/
def CLOSERS : List TokenTypes := [.rbracket, .rparen]

/-- `VALID_STARTS` (eol_inference.py lines 9-24). -/
def VALID_STARTS : List TokenTypes :=
  [.bslash, .end_, .false_, .float_, .if_, .integer, .lbracket, .let_,
    .lparen, .not_, .name_, .string, .tilde, .true_]

/-- `VALID_ENDS` (eol_inference.py lines 25-35). -/
def VALID_ENDS : List TokenTypes :=
  [.end_, .false_, .float_, .integer, .name_, .rbracket, .rparen, .string, .true_]

/-- `can_add_eol` (eol_inference.py lines 38-70). -/
def canAddEol (prev current next_ : Token) (stackSize : Int) : Bool :=
  decide (stackSize = 0)
    && (match current.value with
        | some v => v.data.contains '\n'
        | none => false)
    && VALID_ENDS.contains prev.type_
    && VALID_STARTS.contains next_.type_

/-- The placeholder previous token (eol_inference.py line 111); the loop
body of `insert_eols` never reassigns `prev_token`. -/
def initialPrev : Token := ⟨(0, 0), .eol, none⟩

/-- The loop of `insert_eols` (eol_inference.py lines 112-125): `prev`
stays fixed because the source never updates `prev_token`;
`stream.preview()` is the next raw token. -/
def insertEolsGo (prev : Token) (depth : Int) : List Token → List Token
  | [] => []
  | tok :: rest =>
    if tok.type_ = .whitespace then
      match rest.head? with
      | some nxt =>
        if canAddEol prev tok nxt depth then
          ⟨tok.span, .eol, none⟩ :: insertEolsGo prev depth rest
        else insertEolsGo prev depth rest
      | none => insertEolsGo prev depth rest
    else
      let depth2 : Int :=
        if OPENERS.contains tok.type_ then depth + 1
        else if CLOSERS.contains tok.type_ then depth - 1
        else depth
      tok :: insertEolsGo prev depth2 rest

/-- `insert_eols` (eol_inference.py lines 90-131), including the final
trailing-EOL step (lines 127-130), whose span comes from the never
reassigned `prev_token`. -/
def insertEols (stream : List Token) : List Token :=
  match stream with
  | [] => []
  | _ =>
    let out := insertEolsGo initialPrev 0 stream
    match stream.getLast? with
    | some last =>
      if last.type_ = .eol ∨ last.type_ = .eof then out
      else out ++ [⟨(initialPrev.span.2, initialPrev.span.2 + 1), .eol, none⟩]
    | none => out

/-! ## Type terms and substitutions (src/hasdrubal/type_inferer.py; the
type-term datatype itself lives in the absent ast_.py) -/

/-- Modelled from the spec: the four type-term variants of §3.2.  Spans
on type terms are bookkeeping no claim consults and are omitted;
`TypeVar` is identified by its globally unique id, `GenericType`'s base
name by its text, and a `TypeScheme`'s bound-variable set is carried as
a list of ids. -/
inductive Ty where
  | tvar (v : Nat)
  | generic (base : String) (args : List Ty)
  | func (left : Ty) (right : Ty)
  | scheme (actual : Ty) (bound : List Nat)
deriving Repr

mutual

/-- Structural equality of type terms (the Python `==` used by
`_merge_subs` on dictionary values). -/
def Ty.beq : Ty → Ty → Bool
  | .tvar v, .tvar w => v == w
  | .generic b1 a1, .generic b2 a2 => b1 == b2 && Ty.beqList a1 a2
  | .func l1 r1, .func l2 r2 => Ty.beq l1 l2 && Ty.beq r1 r2
  | .scheme t1 b1, .scheme t2 b2 => Ty.beq t1 t2 && b1 == b2
  | _, _ => false

/-- Pointwise structural equality of type-term lists. -/
def Ty.beqList : List Ty → List Ty → Bool
  | [], [] => true
  | x :: xs, y :: ys => Ty.beq x y && Ty.beqList xs ys
  | _, _ => false

end

/-- A substitution: a finite mapping from `TypeVar` id to type term
(spec §3.2), embedded as an insertion-ordered association list exactly
like a Python dict with unique keys. -/
def Subst : Type := List (Nat × Ty)

instance : Repr Subst := inferInstanceAs (Repr (List (Nat × Ty)))

/-- Dictionary lookup (`substitution.get` / `substitution[key]`). -/
def Subst.find? : Subst → Nat → Option Ty
  | [], _ => none
  | e :: rest, k => if e.1 = k then some e.2 else Subst.find? rest k

/-- Dictionary membership (`key in substitution`). -/
def Subst.containsKey (s : Subst) (k : Nat) : Bool :=
  (s.find? k).isSome

/-- Dictionary update: on a unique-keyed list this replaces the value in
place when the key is present and appends otherwise, exactly like
`d[k] = v`. -/
def Subst.insert : Subst → Nat → Ty → Subst
  | [], k, v => [(k, v)]
  | e :: rest, k, v => if e.1 = k then (k, v) :: rest else e :: Subst.insert rest k v

/-- The dictionary-merge operator `left | right` of `_merge_subs`
(type_inferer.py line 121): right-biased union preserving insertion
order. -/
def Subst.union (l r : Subst) : Subst :=
  r.foldl (fun acc e => acc.insert e.1 e.2) l

/-- The `conflicts` dict of `_merge_subs` (type_inferer.py lines
115-119): the value pairs, in `left`'s key order, of keys present in
both substitutions with unequal values. -/
def conflicts (l r : Subst) : List (Ty × Ty) :=
  l.filterMap fun e =>
    match r.find? e.1 with
    | some rv => if Ty.beq e.2 rv then none else some (e.2, rv)
    | none => none

/-- `substitute` (type_inferer.py lines 124-166).  The Python function
loops forever on cyclic variable chains, so the embedding carries fuel
and returns `none` on exhaustion; every other call decreases the fuel
as well, so fuel beyond the type's depth plus the longest chain is
enough. -/
def substituteT : Nat → Ty → Subst → Option Ty
  | 0, _, _ => none
  | f + 1, t, s =>
    match t with
    | .tvar v =>
      match s.find? v with
      | none => some (.tvar v)
      | some u =>
        match u with
        | .tvar w =>
          if s.containsKey w then substituteT f (.tvar w) s else some (.tvar w)
        | u => some u
    | .generic b args => (args.mapM (fun a => substituteT f a s)).map (.generic b ·)
    | .func l r => do
      let l2 ← substituteT f l s
      let r2 ← substituteT f r s
      some (.func l2 r2)
    | .scheme actual bound =>
      (substituteT f actual (s.filter (fun e => ! bound.contains e.1))).map
        (.scheme · bound)

/-- `instantiate` (type_inferer.py lines 169-188): a scheme's bound vars
are mapped to freshly minted `TypeVar`s (one mint per bound var, in
order) and substituted away; anything else is returned unchanged.
Returns the result and the advanced fresh-variable counter. -/
def instantiateT (fuel ctr : Nat) (t : Ty) : Option (Ty × Nat) :=
  match t with
  | .scheme actual bound =>
    let sub : Subst :=
      bound.enum.foldl (fun acc p => acc.insert p.2 (.tvar (ctr + p.1))) []
    (substituteT fuel actual sub).map (fun t2 => (t2, ctr + bound.length))
  | t => some (t, ctr)

/-- Result of `unify`/`_merge_subs`: a substitution plus the advanced
fresh counter, a `TypeMismatchError` carrying both offending types, or
fuel exhaustion (the Python recursion is unbounded). -/
inductive UR where
  | ok (sub : Subst) (ctr : Nat)
  | mismatch (left : Ty) (right : Ty)
  | nofuel
deriving Repr

mutual

/-- `unify` (type_inferer.py lines 51-79) together with
`_unify_type_vars` (lines 82-91, inlined: at least one side is a
variable on every reachable path), `_unify_generics` (lines 94-102) and
`_unify_func_types` (lines 105-111).  There is no occurs check: a
variable is bound to the other side unconditionally. -/
def unify (fuel ctr : Nat) (l0 r0 : Ty) : UR :=
  match fuel with
  | 0 => .nofuel
  | f + 1 =>
    match instantiateT f ctr l0 with
    | none => .nofuel
    | some (l, c1) =>
      match instantiateT f c1 r0 with
      | none => .nofuel
      | some (r, c2) =>
        match l, r with
        | .tvar v, .tvar w =>
          if v = w then .ok [] c2 else .ok [(v, .tvar w)] c2
        | .tvar v, r2 => .ok [(v, r2)] c2
        | l2, .tvar w => .ok [(w, l2)] c2
        | .generic b1 a1, .generic b2 a2 =>
          if b1 = b2 ∧ a1.length = a2.length then
            unifyFold f c2 [] (a1.zip a2)
          else .mismatch (.generic b1 a1) (.generic b2 a2)
        | .func fl1 fr1, .func fl2 fr2 =>
          match unify f c2 fl1 fl2 with
          | .ok s1 c3 =>
            match substituteT f fr1 s1, substituteT f fr2 s1 with
            | some x, some y =>
              match unify f c3 x y with
              | .ok s2 c4 => mergeSubs f c4 s1 s2
              | e => e
            | _, _ => .nofuel
          | e => e
        | l2, r2 => .mismatch l2 r2

/-- The shared accumulation loop: both `_unify_generics`'s argument loop
(lines 98-102) and the `reduce(_merge_subs, star_map(unify, ...), {})`
over conflict pairs (line 120) unify each pair and merge the result
into the accumulator. -/
def unifyFold (fuel ctr : Nat) (acc : Subst) (pairs : List (Ty × Ty)) : UR :=
  match fuel, pairs with
  | _, [] => .ok acc ctr
  | 0, _ => .nofuel
  | f + 1, (x, y) :: rest =>
    match unify f ctr x y with
    | .ok s c =>
      match mergeSubs f c acc s with
      | .ok acc2 c2 => unifyFold f c2 acc2 rest
      | e => e
    | e => e

/-- `_merge_subs` (type_inferer.py lines 114-121): conflicting values
are recursively unified, and the result is `left | right | solved` — a
plain right-biased dictionary union; `left` is never applied to
`right`'s values. -/
def mergeSubs (fuel ctr : Nat) (l r : Subst) : UR :=
  match fuel with
  | 0 => .nofuel
  | f + 1 =>
    match unifyFold f ctr [] (conflicts l r) with
    | .ok solved c => .ok ((l.union r).union solved) c
    | e => e

end

/-- Deduplicating union on id lists (Python set union, keeping
first-occurrence order). -/
def idUnion (a b : List Nat) : List Nat :=
  a ++ b.filter (fun x => ! a.contains x)

mutual

/-- `find_free_vars` (type_inferer.py lines 212-234), returning the set
of free variable ids in first-occurrence order. -/
def findFreeVars : Ty → List Nat
  | .tvar v => [v]
  | .generic _ args => findFreeVarsList args
  | .func l r => idUnion (findFreeVars l) (findFreeVars r)
  | .scheme actual bound => (findFreeVars actual).filter (fun x => ! bound.contains x)

/-- The `reduce(or_, map(find_free_vars, args), set())` fold for
`GenericType` arguments. -/
def findFreeVarsList : List Ty → List Nat
  | [] => []
  | t :: ts => idUnion (findFreeVars t) (findFreeVarsList ts)

end

/-- Modelled from the spec: `TypeScheme.fold` (ast_.py is absent) merges
a scheme directly around another scheme into a single scheme over the
union of bound vars. -/
def schemeFoldAux : Ty → List Nat → Ty
  | .scheme inner innerBound, acc => schemeFoldAux inner (idUnion innerBound acc)
  | t, acc => .scheme t acc

/-- `generalise` (type_inferer.py lines 191-209): wrap in a folded
scheme when free vars exist, else return unchanged. -/
def generalise (t : Ty) : Ty :=
  let free := findFreeVars t
  if free.isEmpty then t else schemeFoldAux t free

/-- `_self_substitute` (type_inferer.py lines 15-19): one simultaneous
application of the substitution to its own right-hand sides (the
`is not None` guard never fires since values are always type terms). -/
def selfSubstitute (fuel : Nat) (s : Subst) : Option Subst :=
  s.mapM (fun e => (substituteT fuel e.2 s).map (fun t => (e.1, t)))

/-! ## The type-inference pipeline (src/hasdrubal/type_inferer.py; the
AST datatype of ast_.py and the scope of scope.py are absent from src
and modelled from the spec) -/

/-- Modelled from the spec: the surface AST of ast_.py.  `Block` carries
`first`/`rest` (the type inferer reads `node.first` and `node.rest`,
and a block is non-empty per §3.3). -/
inductive ANode where
  | scalar (span : Span) (value : ScalarVal)
  | name (span : Span) (text : String)
  | vector (span : Span) (vecType : VectorType) (elements : List ANode)
  | cond (span : Span) (pred : ANode) (cons : ANode) (else_ : ANode)
  | function (span : Span) (param : ANode) (body : ANode)
  | funcCall (span : Span) (caller : ANode) (callee : ANode)
  | define (span : Span) (target : ANode) (value : ANode) (body : Option ANode)
  | block (span : Span) (first : ANode) (rest : List ANode)
deriving Repr

/-- The typed AST: ast_ nodes with their null-carrying `type_` attribute
made explicit as an `Option Ty` (spec §9: attributes start as null and
are mutated in place; the embedding rebuilds nodes instead). -/
inductive TNode where
  | scalar (span : Span) (value : ScalarVal) (ty : Option Ty)
  | name (span : Span) (text : String) (ty : Option Ty)
  | vector (span : Span) (vecType : VectorType) (elements : List TNode) (ty : Option Ty)
  | cond (span : Span) (pred : TNode) (cons : TNode) (else_ : TNode) (ty : Option Ty)
  | function (span : Span) (param : TNode) (body : TNode) (ty : Option Ty)
  | funcCall (span : Span) (caller : TNode) (callee : TNode) (ty : Option Ty)
  | define (span : Span) (target : TNode) (value : TNode) (body : Option TNode) (ty : Option Ty)
  | block (span : Span) (first : TNode) (rest : List TNode) (ty : Option Ty)
deriving Repr

/-- The `type_` attribute of a typed node. -/
def TNode.ty : TNode → Option Ty
  | .scalar _ _ t => t
  | .name _ _ t => t
  | .vector _ _ _ t => t
  | .cond _ _ _ _ t => t
  | .function _ _ _ t => t
  | .funcCall _ _ _ t => t
  | .define _ _ _ _ t => t
  | .block _ _ _ t => t

mutual

/-- An ast_ node viewed as a typed node whose `type_` attribute is still
null (used for the tuple elements that `_Inserter.visit_vector` returns
without visiting, type_inferer.py lines 301-303). -/
def toUntypedT : ANode → TNode
  | .scalar sp v => .scalar sp v none
  | .name sp t => .name sp t none
  | .vector sp vt elems => .vector sp vt (toUntypedTList elems) none
  | .cond sp p c e => .cond sp (toUntypedT p) (toUntypedT c) (toUntypedT e) none
  | .function sp p b => .function sp (toUntypedT p) (toUntypedT b) none
  | .funcCall sp f a => .funcCall sp (toUntypedT f) (toUntypedT a) none
  | .define sp t v b => .define sp (toUntypedT t) (toUntypedT v) (toUntypedTOpt b) none
  | .block sp f r => .block sp (toUntypedT f) (toUntypedTList r) none

/-- List helper for `toUntypedT`. -/
def toUntypedTList : List ANode → List TNode
  | [] => []
  | x :: xs => toUntypedT x :: toUntypedTList xs

/-- Option helper for `toUntypedT`. -/
def toUntypedTOpt : Option ANode → Option TNode
  | none => none
  | some x => some (toUntypedT x)

end

mutual

/-- `_Inserter` (type_inferer.py lines 237-315): children are visited
left to right, then the node's `type_` is set; each `TypeVar.unknown`
mints the next counter value.  `Function` nodes get a
`FuncType(fresh, fresh)` (parameter slot minted first); list `Vector`s
get `GenericType(List, [fresh])` minted after the elements; tuple
`Vector`s get a bare fresh var and their elements are left unvisited. -/
def insertTypes (ctr : Nat) : ANode → TNode × Nat
  | .scalar sp v => (.scalar sp v (some (.tvar ctr)), ctr + 1)
  | .name sp t => (.name sp t (some (.tvar ctr)), ctr + 1)
  | .vector sp vt elems =>
    match vt with
    | .tuple => (.vector sp .tuple (toUntypedTList elems) (some (.tvar ctr)), ctr + 1)
    | .list =>
      let (ts, c) := insertTypesList ctr elems
      (.vector sp .list ts (some (.generic "List" [.tvar c])), c + 1)
  | .cond sp p c e =>
    let (p2, c1) := insertTypes ctr p
    let (c2, c2n) := insertTypes c1 c
    let (e2, c3) := insertTypes c2n e
    (.cond sp p2 c2 e2 (some (.tvar c3)), c3 + 1)
  | .function sp p b =>
    let (p2, c1) := insertTypes ctr p
    let (b2, c2) := insertTypes c1 b
    (.function sp p2 b2 (some (.func (.tvar c2) (.tvar (c2 + 1)))), c2 + 2)
  | .funcCall sp f a =>
    let (f2, c1) := insertTypes ctr f
    let (a2, c2) := insertTypes c1 a
    (.funcCall sp f2 a2 (some (.tvar c2)), c2 + 1)
  | .define sp t v b =>
    let (t2, c1) := insertTypes ctr t
    let (v2, c2) := insertTypes c1 v
    let (b2, c3) := insertTypesOpt c2 b
    (.define sp t2 v2 b2 (some (.tvar c3)), c3 + 1)
  | .block sp f r =>
    let (f2, c1) := insertTypes ctr f
    let (r2, c2) := insertTypesList c1 r
    (.block sp f2 r2 (some (.tvar c2)), c2 + 1)

/-- List helper for `insertTypes`. -/
def insertTypesList (ctr : Nat) : List ANode → List TNode × Nat
  | [] => ([], ctr)
  | x :: xs =>
    let (t, c) := insertTypes ctr x
    let (ts, c2) := insertTypesList c xs
    (t :: ts, c2)

/-- Option helper for `insertTypes`. -/
def insertTypesOpt (ctr : Nat) : Option ANode → Option TNode × Nat
  | none => (none, ctr)
  | some x =>
    let (t, c) := insertTypes ctr x
    (some t, c)

end

/-- Modelled from the spec: one lexical scope frame mapping a name's
text to the stored `type_` attribute (scope.py is absent from src;
lookup is by textual identity per §3.4). -/
def ScopeFrame : Type := List (String × Option Ty)

/-- Modelled from the spec: a scope is a chain of frames, innermost
first, rooted in the built-in operator table. -/
def Scope : Type := List ScopeFrame

/-- Lookup walking the frames outward (spec §3.4). -/
def Scope.lookup : Scope → String → Option (Option Ty)
  | [], _ => none
  | f :: rest, n =>
    match f.find? (fun e => e.1 == n) with
    | some e => some e.2
    | none => Scope.lookup rest n

/-- Membership test over the whole chain (`name in scope`). -/
def Scope.containsName (s : Scope) (n : String) : Bool :=
  (s.lookup n).isSome

/-- Insertion into the innermost frame (spec §3.4: insertion is local),
replacing an existing entry for the same text. -/
def ScopeFrame.insertF : ScopeFrame → String → Option Ty → ScopeFrame
  | [], n, v => [(n, v)]
  | e :: rest, n, v =>
    if e.1 = n then (n, v) :: rest else e :: ScopeFrame.insertF rest n v

/-- `scope[name] = value` on the innermost frame. -/
def Scope.insertLocal : Scope → String → Option Ty → Scope
  | [], n, v => [[(n, v)]]
  | f :: rest, n, v => f.insertF n v :: rest

/-- Modelled from the spec: `DEFAULT_OPERATOR_TYPES` (scope.py is absent
from src).  Each binary operator is a generalized function type
`∀a. a → a → a` per the §3.4 example; the bound-variable ids use a high
base so they stay clear of minted counters.  No settled claim's
computation consults this table. -/
def defaultOperatorTypes : ScopeFrame :=
  let a : Ty := .tvar 1000000
  let binOp : Option Ty := some (.scheme (.func a (.func a a)) [1000000])
  let boolTy : Ty := .generic "Bool" []
  [ ("+", binOp), ("-", binOp), ("*", binOp), ("/", binOp), ("^", binOp),
    ("%", binOp), ("<", binOp), (">", binOp), ("=", binOp), ("<>", binOp),
    ("~", some (.scheme (.func a a) [1000000])),
    ("and", some (.func boolTy (.func boolTy boolTy))),
    ("or", some (.func boolTy (.func boolTy boolTy))),
    ("not", some (.func boolTy boolTy)) ]

/-- The root scope `Scope(DEFAULT_OPERATOR_TYPES)` of
`_EquationGenerator.__init__` (type_inferer.py line 339). -/
def initialScope : Scope := [defaultOperatorTypes]

/-- A type equation: a pair of (possibly still null) `type_` attributes
(type_inferer.py line 338). -/
abbrev Eqn : Type := Option Ty × Option Ty

/-- The error taxonomy that the embedded inference pipeline can surface:
unification failure (`TypeMismatchError`), a missing scope binding, fuel
exhaustion, and the `TypeError` the Python code raises when a null or
malformed `type_` attribute reaches code that needs a type term. -/
inductive IErr where
  | typeMismatch (left : Option Ty) (right : Option Ty)
  | unboundName (n : String)
  | outOfFuel
  | invalidType
deriving Repr

/-- The scalar kind name used by `_EquationGenerator.visit_scalar`
(type_inferer.py lines 402-410). -/
def scalarTypeName : ScalarVal → String
  | .bool _ => "Bool"
  | .float _ => "Float"
  | .int _ => "Int"
  | .str _ => "String"

/-- The target of a `Define` as a scope key (the generator keys the
scope by the target `Name`'s text). -/
def TNode.nameText : TNode → Option String
  | .name _ t _ => some t
  | _ => none

/-- Replace a typed node's `type_` attribute. -/
def TNode.withTy : TNode → Option Ty → TNode
  | .scalar sp v _, t => .scalar sp v t
  | .name sp n _, t => .name sp n t
  | .vector sp vt es _, t => .vector sp vt es t
  | .cond sp p c e _, t => .cond sp p c e t
  | .function sp p b _, t => .function sp p b t
  | .funcCall sp f a _, t => .funcCall sp f a t
  | .define sp tg v b _, t => .define sp tg v b t
  | .block sp f r _, t => .block sp f r t

mutual

/-- `_EquationGenerator` (type_inferer.py lines 318-439): walks the
annotated tree threading the scope chain, the fresh counter and the
accumulated equation list, and returns the (possibly rewritten) tree —
`visit_define` overwrites `node.value.type_` with its generalisation
(line 365).  A null attribute where the Python code would construct a
type from it surfaces as `invalidType`. -/
def genVisit (scope : Scope) (ctr : Nat) (eqs : List Eqn) :
    TNode → Except IErr (TNode × Scope × Nat × List Eqn)
  | .scalar sp v ty =>
    .ok (.scalar sp v ty, scope, ctr, eqs ++ [(ty, some (.generic (scalarTypeName v) []))])
  | .name sp t ty =>
    match scope.lookup t with
    | some v => .ok (.name sp t ty, scope, ctr, eqs ++ [(ty, v)])
    | none => .error (.unboundName t)
  | .cond sp p c e ty => do
    let (p2, s1, c1, e1) ← genVisit scope ctr eqs p
    let (c2, s2, c2n, e2) ← genVisit s1 c1 e1 c
    let (e2n, s3, c3, e3) ← genVisit s2 c2n e2 e
    .ok (.cond sp p2 c2 e2n ty, s3, c3,
      e3 ++ [(p2.ty, some (.generic "Bool" [])), (ty, c2.ty), (ty, e2n.ty)])
  | .function sp p b ty => do
    match p.nameText with
    | none => .error .invalidType
    | some ptext =>
      let pushed := Scope.insertLocal ([] :: scope) ptext p.ty
      let (b2, s1, c1, e1) ← genVisit pushed ctr eqs b
      let popped := s1.tail
      match p.ty, b2.ty with
      | some pt, some bt =>
        .ok (.function sp p b2 ty, popped, c1, e1 ++ [(ty, some (.func pt bt))])
      | _, _ => .error .invalidType
  | .funcCall sp f a ty => do
    let (f2, s1, c1, e1) ← genVisit scope ctr eqs f
    let (a2, s2, c2, e2) ← genVisit s1 c1 e1 a
    match a2.ty, ty with
    | some at_, some nt =>
      .ok (.funcCall sp f2 a2 ty, s2, c2, e2 ++ [(f2.ty, some (.func at_ nt))])
    | _, _ => .error .invalidType
  | .define sp t v b ty => do
    let (v2, s1, c1, e1) ← genVisit scope ctr eqs v
    let v3ty ← match v2.ty with
      | some vt => pure (some (generalise vt))
      | none => .error IErr.invalidType
    let v3 := v2.withTy v3ty
    match t.nameText with
    | none => .error .invalidType
    | some ttext =>
      let e2 := e1 ++ [(ty, v3ty), (ty, t.ty)]
      let e3 := if s1.containsName ttext then
          match s1.lookup ttext with
          | some prior => e2 ++ [(t.ty, prior)]
          | none => e2
        else e2
      match b with
      | none =>
        .ok (.define sp t v3 none ty, s1.insertLocal ttext t.ty, c1, e3)
      | some bNode => do
        let pushed := Scope.insertLocal ([] :: s1) ttext t.ty
        let (b2, s2, c2, e4) ← genVisit pushed c1 e3 bNode
        .ok (.define sp t v3 (some b2) ty, s2.tail, c2, e4)
  | .block sp f r ty => do
    let pushed : Scope := [] :: scope
    let (f2, s1, c1, e1) ← genVisit pushed ctr eqs f
    let (r2, s2, c2, e2) ← genVisitList s1 c1 e1 r
    let last := r2.getLastD f2
    .ok (.block sp f2 r2 ty, s2.tail, c2, e2 ++ [(ty, last.ty)])
  | .vector sp vt elems ty =>
    match vt with
    | .tuple => do
      let (elems2, s1, c1, e1) ← genVisitList scope ctr eqs elems
      match elems2 with
      | [] => .ok (.vector sp .tuple [] ty, s1, c1,
          e1 ++ [(ty, some (.generic "Unit" []))])
      | es =>
        match (es.map TNode.ty).mapM id with
        | some args => .ok (.vector sp .tuple es ty, s1, c1,
            e1 ++ [(ty, some (.generic "Tuple" args))])
        | none => .error .invalidType
    | .list => do
      let elemTy : Ty := .tvar ctr
      let (elems2, s1, c1, e1) ← genVisitElems scope (ctr + 1) eqs elemTy elems
      .ok (.vector sp .list elems2 ty, s1, c1,
        e1 ++ [(ty, some (.generic "List" [elemTy]))])

/-- Sequential traversal of a node list (block bodies and tuple
elements), threading scope, counter and equations. -/
def genVisitList (scope : Scope) (ctr : Nat) (eqs : List Eqn) :
    List TNode → Except IErr (List TNode × Scope × Nat × List Eqn)
  | [] => .ok ([], scope, ctr, eqs)
  | x :: xs => do
    let (x2, s1, c1, e1) ← genVisit scope ctr eqs x
    let (xs2, s2, c2, e2) ← genVisitList s1 c1 e1 xs
    .ok (x2 :: xs2, s2, c2, e2)

/-- The element loop of the list-vector case (type_inferer.py lines
427-434): visit each element, then equate its type with the shared
element var. -/
def genVisitElems (scope : Scope) (ctr : Nat) (eqs : List Eqn) (elemTy : Ty) :
    List TNode → Except IErr (List TNode × Scope × Nat × List Eqn)
  | [] => .ok ([], scope, ctr, eqs)
  | x :: xs => do
    let (x2, s1, c1, e1) ← genVisit scope ctr eqs x
    let (xs2, s2, c2, e2) ← genVisitElems s1 c1 (e1 ++ [(x2.ty, some elemTy)]) elemTy xs
    .ok (x2 :: xs2, s2, c2, e2)

end

/-- Apply the substitution to a (possibly null) `type_` attribute: on a
null attribute the Python `substitute` raises `TypeError` (its final
branch), and fuel exhaustion is reported separately. -/
def substAttr (fuel : Nat) (sub : Subst) : Option Ty → Except IErr (Option Ty)
  | none => .error .invalidType
  | some t =>
    match substituteT fuel t sub with
    | some t2 => .ok (some t2)
    | none => .error .outOfFuel

mutual

/-- `_Substitutor` (type_inferer.py lines 442-501): children first, then
the node's `type_` is replaced by its substituted (and, at `Define` and
`Function` nodes, re-generalised) form.  `visit_define` (lines 469-473)
does not visit the optional body, so an inline body is left with its
pre-substitution types. -/
def subVisit (fuel : Nat) (sub : Subst) : TNode → Except IErr TNode
  | .scalar sp v ty => do
    let ty2 ← substAttr fuel sub ty
    .ok (.scalar sp v ty2)
  | .name sp n ty => do
    let ty2 ← substAttr fuel sub ty
    .ok (.name sp n ty2)
  | .vector sp vt es ty => do
    let es2 ← subVisitList fuel sub es
    let ty2 ← substAttr fuel sub ty
    .ok (.vector sp vt es2 ty2)
  | .cond sp p c e ty => do
    let p2 ← subVisit fuel sub p
    let c2 ← subVisit fuel sub c
    let e2 ← subVisit fuel sub e
    let ty2 ← substAttr fuel sub ty
    .ok (.cond sp p2 c2 e2 ty2)
  | .funcCall sp f a ty => do
    let f2 ← subVisit fuel sub f
    let a2 ← subVisit fuel sub a
    let ty2 ← substAttr fuel sub ty
    .ok (.funcCall sp f2 a2 ty2)
  | .function sp p b ty => do
    let p2 ← subVisit fuel sub p
    let b2 ← subVisit fuel sub b
    let ty2 ← substAttr fuel sub ty
    .ok (.function sp p2 b2 (ty2.map generalise))
  | .define sp t v b ty => do
    let t2 ← subVisit fuel sub t
    let v2 ← subVisit fuel sub v
    let ty2 ← substAttr fuel sub ty
    .ok (.define sp t2 v2 b (ty2.map generalise))
  | .block sp f r ty => do
    let f2 ← subVisit fuel sub f
    let r2 ← subVisitList fuel sub r
    let ty2 ← substAttr fuel sub ty
    .ok (.block sp f2 r2 ty2)

/-- List helper for `subVisit`. -/
def subVisitList (fuel : Nat) (sub : Subst) : List TNode → Except IErr (List TNode)
  | [] => .ok []
  | x :: xs => do
    let x2 ← subVisit fuel sub x
    let xs2 ← subVisitList fuel sub xs
    .ok (x2 :: xs2)

end

/-- The `reduce(_merge_subs, star_map(unify, equations), {})` fold of
`infer_types` (type_inferer.py line 46): each equation is unified and
merged into the accumulator in order.  A null side makes the Python
`unify` fall through its `isinstance` chain and raise
`TypeMismatchError`. -/
def solveEquations (fuel : Nat) : Nat → Subst → List Eqn → Except IErr (Subst × Nat)
  | ctr, acc, [] => .ok (acc, ctr)
  | ctr, acc, (some l, some r) :: rest =>
    match unify fuel ctr l r with
    | .ok s c =>
      match mergeSubs fuel c acc s with
      | .ok acc2 c2 => solveEquations fuel c2 acc2 rest
      | .mismatch a b => .error (.typeMismatch (some a) (some b))
      | .nofuel => .error .outOfFuel
    | .mismatch a b => .error (.typeMismatch (some a) (some b))
    | .nofuel => .error .outOfFuel
  | _, _, (l, r) :: _ => .error (.typeMismatch l r)

/-- The first two passes of `infer_types` (type_inferer.py lines 41-44):
insertion then equation generation, starting a fresh compilation counter
at zero and the scope at the operator table. -/
def inferGen (tree : ANode) : Except IErr (TNode × Nat × List Eqn) := do
  let (t1, c1) := insertTypes 0 tree
  let (t2, _, c2, eqs) ← genVisit initialScope c1 [] t1
  .ok (t2, c2, eqs)

/-- The substitution `infer_types` computes (type_inferer.py lines
45-47): the fold of `unify`/`_merge_subs` over the equations followed by
the single `_self_substitute` pass. -/
def inferSubstitution (fuel : Nat) (tree : ANode) : Except IErr Subst := do
  let (_, c2, eqs) ← inferGen tree
  let (sub, _) ← solveEquations fuel c2 [] eqs
  match selfSubstitute fuel sub with
  | some s2 => .ok s2
  | none => .error .outOfFuel

/-- `infer_types` (type_inferer.py lines 22-48). -/
def inferTypes (fuel : Nat) (tree : ANode) : Except IErr TNode := do
  let (t2, c2, eqs) ← inferGen tree
  let (sub, _) ← solveEquations fuel c2 [] eqs
  match selfSubstitute fuel sub with
  | some s2 => subVisit fuel s2 t2
  | none => .error .outOfFuel

/-- The doubly nested list literal `[[1]]` as an ast_ tree. -/
def nestedListProg : ANode :=
  .vector (0, 5) .list [.vector (1, 4) .list [.scalar (2, 3) (.int 1)]]

/-- The program `let x = x x` (a top-level define whose value applies
the bound name to itself). -/
def selfApplyProg : ANode :=
  .define (0, 11) (.name (4, 5) "x")
    (.funcCall (8, 11) (.name (8, 9) "x") (.name (10, 11) "x")) none

/-! ## Theorems for the claims -/

/-- C1: `unify` performs no occurs check — unifying the variable `α`
with the non-variable type `α → α` that contains it returns the
substitution binding `α ↦ α → α` instead of raising a type-mismatch
error; and running inference on a tree shaped like `let x = x x` fails
with an unbound-name error (the value is typed before the target is
bound), not with an occurs-check type mismatch. -/
theorem unify_binds_var_into_containing_type :
    unify 20 0 (.tvar 0) (.func (.tvar 0) (.tvar 0))
      = UR.ok [(0, Ty.func (.tvar 0) (.tvar 0))] 0 ∧
    inferTypes 50 selfApplyProg = .error (.unboundName "x") :=
  ⟨rfl, rfl⟩

/-- C2: on the doubly nested list literal `[[1]]` the substitution
computed by `infer_types` is not closed under itself — its entry for
var 2 is `List[var 1]` while var 1 is itself in the domain (mapped to
`Int`) — and the returned root node's `type_` is
`List[List[var 1]]`, which still contains the domain variable 1; the
single `_self_substitute` pass is not iterated to a fixed point. -/
theorem inferTypes_nested_list_not_fully_applied :
    inferSubstitution 50 nestedListProg
      = .ok [(0, Ty.generic "Int" []), (4, Ty.generic "Int" []),
          (1, Ty.generic "Int" []), (3, Ty.generic "List" [Ty.generic "Int" []]),
          (2, Ty.generic "List" [Ty.tvar 1])] ∧
    Subst.find? [(0, Ty.generic "Int" []), (4, Ty.generic "Int" []),
          (1, Ty.generic "Int" []), (3, Ty.generic "List" [Ty.generic "Int" []]),
          (2, Ty.generic "List" [Ty.tvar 1])] 1 = some (.generic "Int" []) ∧
    (inferTypes 50 nestedListProg).map TNode.ty
      = .ok (some (.generic "List" [.generic "List" [.tvar 1]])) ∧
    (findFreeVars (.generic "List" [.generic "List" [.tvar 1]])).contains 1 = true :=
  ⟨rfl, rfl, rfl, rfl⟩

/-- C4 counterexample: with definition sorting enabled, the executed
pass sequence never contains string expansion, and function inlining
runs before type inference, contradicting the claimed placement of both
passes. -/
theorem pipeline_counterexample :
    Pass.expandStrings ∉ pipelinePasses ⟨false, false, false, true, false⟩ ∧
    (pipelinePasses ⟨false, false, false, true, false⟩).indexOf Pass.inlineFunctions
      < (pipelinePasses ⟨false, false, false, true, false⟩).indexOf Pass.inferTypesPass := by
  decide

/-- C4 amended: for every configuration the pipeline runs newline
normalisation, lexing, EOL inference, token-stream wrapping, parsing,
then — before type inference — type-variable resolution, function
inlining and (when enabled) topological sorting, and — after
inference — simplification and constant folding before instruction
generation and optional compression; string expansion never appears. -/
theorem pipeline_order :
    ∀ c : ConfigData,
      pipelinePasses c =
        [.normaliseNewlines, .lexPass, .inferEols, .tokenStream, .parsePass,
          .resolveTypeVars, .inlineFunctions,
          (if c.sortDefs then .topologicalSort else .doNothing),
          .inferTypesPass, .simplify, .foldConstants, .toBytecode,
          (if c.compress then .compressPass else .doNothing)] ∧
      (pipelinePasses c).contains Pass.expandStrings = false := by
  intro c
  rcases c with ⟨st, sa, sty, sd, cp⟩
  cases sd <;> cases cp <;> exact ⟨rfl, rfl⟩

/-- A match attempt fails on any position whose first character is not a
backslash. -/
theorem matchEscape_eq_none_of_head_ne (c : Char) (rest : List Char)
    (h : ¬ c = '\\') : matchEscape (c :: rest) = none := by
  cases rest with
  | nil => rfl
  | cons r rs => simp [matchEscape, h]

/-- A backslash-free character list contains no escape match. -/
theorem hasMatch_eq_false_of_no_bslash (cs : List Char) (h : '\\' ∉ cs) :
    hasMatch cs = false := by
  induction cs with
  | nil => rfl
  | cons c rest ih =>
    have hc : ¬ c = '\\' := fun e => h (by rw [e]; exact List.mem_cons_self _ _)
    have hr : '\\' ∉ rest := fun m => h (List.mem_cons_of_mem _ m)
    simp [hasMatch, matchEscape_eq_none_of_head_ne c rest hc, ih hr]

/-- `expandGo` returns the empty string on the empty list for any fuel. -/
theorem expandGo_nil (fuel : Nat) : expandGo fuel [] = "" := by
  cases fuel <;> rfl

/-- C5: `expand_string` maps every backslash-free string to the empty
string — string parts are only appended before a match, and the tail
after the last match is never appended, so with no matches nothing is
kept; string-escape expansion is therefore not the identity on
backslash-free strings. -/
theorem expandString_no_backslash_eq_empty (s : String) (h : '\\' ∉ s.data) :
    expandString s = "" := by
  unfold expandString
  have hl : s.length = s.data.length := rfl
  rw [hl]
  cases hd : s.data with
  | nil => exact expandGo_nil _
  | cons c rest =>
    rw [hd] at h
    have hc : ¬ c = '\\' := fun e => h (by rw [e]; exact List.mem_cons_self _ _)
    have hr : '\\' ∉ rest := fun m => h (List.mem_cons_of_mem _ m)
    simp [expandGo, matchEscape_eq_none_of_head_ne c rest hc,
      hasMatch_eq_false_of_no_bslash rest hr]

/-- Witness for C5 at the concrete backslash-free input `"abc"`. -/
theorem expandString_no_backslash_eq_empty_witness :
    ('\\' ∉ "abc".data) ∧ expandString "abc" = "" :=
  ⟨by decide, expandString_no_backslash_eq_empty "abc" (by decide)⟩

/-- C6: the lowered `FuncCall` constructor stores the callee in the
`args` attribute — for every span, callee and argument list the built
node has `args` equal to the callee (as the left injection of the
untyped attribute) and never equal to the materialized argument list. -/
theorem mkFuncCall_args_is_func (s : Span) (f : LNode) (a : List LNode) :
    (mkFuncCall s f a).argsAttr = some (Sum.inl f) ∧
    (mkFuncCall s f a).funcAttr = some f ∧
    ∀ xs : List LNode, (mkFuncCall s f a).argsAttr ≠ some (Sum.inr xs) := by
  refine ⟨rfl, rfl, ?_⟩
  intro xs h
  simp [mkFuncCall, LNode.argsAttr] at h

/-- A stream with a newline whitespace flanked by a valid
expression-ender (a name) and a valid expression-starter (an integer)
at depth zero — exactly the shape where the spec requires an EOL
insertion. -/
def c7Stream : List Token :=
  [⟨(0, 1), .name_, some "x"⟩, ⟨(1, 2), .whitespace, some "\n"⟩,
    ⟨(2, 3), .integer, some "1"⟩]

/-- C7: `insert_eols` never inserts an EOL at a whitespace position,
because the loop never reassigns `prev_token`, so `can_add_eol` is
always called with the initial dummy EOL token as `prev` — whose type is
not a valid expression-ender — and returns false for every whitespace;
on the flanked-newline stream the whitespace is simply dropped and only
the trailing EOL (with the dummy token's span) is appended. -/
theorem insertEols_never_fires_on_whitespace :
    insertEols c7Stream
      = [⟨(0, 1), .name_, some "x"⟩, ⟨(2, 3), .integer, some "1"⟩,
          ⟨(0, 1), .eol, none⟩] ∧
    ∀ (cur next_ : Token) (d : Int), canAddEol initialPrev cur next_ d = false := by
  refine ⟨rfl, ?_⟩
  intro cur next_ d
  have hc : VALID_ENDS.contains initialPrev.type_ = false := rfl
  unfold canAddEol
  rw [hc]
  simp

/-- C8: the lowered-AST operator enumeration has exactly the ten members
`+ / = ^ > <> < * ~ -` and none of them is the modulus operator `%`,
although the repository's own test suite (src/tests/test_codegen.py line
24) constructs `lowered.OperationTypes.MOD`. -/
theorem operationTypes_lack_modulus :
    (∀ op : OperationTypes, OperationTypes.value op ≠ "%") ∧
    [OperationTypes.add, .div, .equal, .exp, .greater, .join, .less, .mul,
        .neg, .sub].map OperationTypes.value
      = ["+", "/", "=", "^", ">", "<>", "<", "*", "~", "-"] ∧
    ∀ op : OperationTypes,
      op ∈ [OperationTypes.add, .div, .equal, .exp, .greater, .join, .less,
        .mul, .neg, .sub] := by
  refine ⟨?_, rfl, ?_⟩ <;> intro op <;> cases op <;> decide

/-- A `Define` with an inline body, as fed to the string expander. -/
def c9Define : BNode :=
  .define (0, 14) (.name (4, 5) "x") (.scalar (8, 9) (.int 1))
    (some (.name (13, 14) "x"))

/-- C9: the string expander does not pass `Define` nodes through
structurally unchanged — `visit_define` rebuilds the node from only the
span, target and value, so the inline body is replaced by the absent
body rather than being transformed recursively. -/
theorem expander_drops_define_body :
    expandNode c9Define
      = .define (0, 14) (.name (4, 5) "x") (.scalar (8, 9) (.int 1)) none ∧
    expandNode c9Define
      ≠ .define (0, 14) (.name (4, 5) "x") (.scalar (8, 9) (.int 1))
          (some (.name (13, 14) "x")) := by
  have h0 : expandNode c9Define
      = .define (0, 14) (.name (4, 5) "x") (.scalar (8, 9) (.int 1)) none := rfl
  refine ⟨h0, ?_⟩
  intro h
  rw [h0] at h
  injection h with h1 h2 h3 h4
  exact Option.noConfusion h4

/-- C10 counterexample: on the input `\ab` (where `\a` is a special
escape and `a`,`b` are both hex digits) `expand_string` returns just the
BEL character — the match is resolved as the special escape, but the
following literal `b` lands in the dropped tail, so the result is not
the special escape followed by the remaining literal character. -/
theorem expandString_special_hex_overlap :
    expandString "\\ab" = "\x07" ∧ expandString "\\ab" ≠ "\x07b" := by
  refine ⟨rfl, ?_⟩
  intro h
  have h2 : ("\x07" : String) = "\x07b" := by rw [← h]; rfl
  simp at h2

/-- C10 amended: at a position where both the special alternative and
the two-hex-digit alternative of `ESCAPE_PATTERN` could match (the
character after the backslash is one of the special characters `a`,
`b`, `f` that are also hex digits, and the next character is a hex
digit), the matcher always takes the special escape: it consumes only
the two-character escape, produces its special expansion, and leaves
the following hex digit as ordinary text — it never consumes it as part
of a hex code point. -/
theorem matchEscape_special_beats_hex (c1 c2 : Char) (rest : List Char)
    (h1 : c1 ∈ ['a', 'b', 'f']) (_h2 : isHexDig c2 = true) :
    matchEscape ('\\' :: c1 :: c2 :: rest) = some (specialExpansion c1, c2 :: rest) := by
  simp only [List.mem_cons, List.not_mem_nil, or_false] at h1
  rcases h1 with rfl | rfl | rfl <;> rfl

/-- Witness for the C10 amended theorem at the concrete overlap `\ab`. -/
theorem matchEscape_special_beats_hex_witness :
    ('a' ∈ ['a', 'b', 'f']) ∧ isHexDig 'b' = true ∧
    matchEscape ['\\', 'a', 'b'] = some (specialExpansion 'a', ['b']) :=
  ⟨by decide, by decide, matchEscape_special_beats_hex 'a' 'b' [] (by decide) (by decide)⟩

/-! ## Association-list lemmas for the merge theorem -/

/-- Key list of a substitution. -/
def Subst.keys (s : Subst) : List Nat := s.map Prod.fst

/-- A dict-shaped substitution: no duplicate keys. -/
abbrev KeysNodup (s : Subst) : Prop := s.keys.Nodup

/-- Lookup after inserting a key finds the inserted value. -/
theorem Subst.find?_insert_self (s : Subst) (k : Nat) (v : Ty) :
    (s.insert k v).find? k = some v := by
  induction s with
  | nil => simp [Subst.insert, Subst.find?]
  | cons e rest ih =>
    by_cases he : e.1 = k
    · simp [Subst.insert, Subst.find?, he]
    · simp [Subst.insert, Subst.find?, he, ih]

/-- Inserting one key leaves lookups of other keys unchanged. -/
theorem Subst.find?_insert_ne (s : Subst) (k : Nat) (v : Ty) (k2 : Nat)
    (h : ¬ k = k2) : (s.insert k v).find? k2 = s.find? k2 := by
  induction s with
  | nil => simp [Subst.insert, Subst.find?, h]
  | cons e rest ih =>
    by_cases he : e.1 = k
    · simp [Subst.insert, Subst.find?, he, h]
    · simp [Subst.insert, Subst.find?, he, ih]

/-- Lookup misses keys that are absent. -/
theorem Subst.find?_eq_none_of_not_mem (s : Subst) (k : Nat)
    (h : k ∉ s.keys) : s.find? k = none := by
  induction s with
  | nil => rfl
  | cons e rest ih =>
    simp only [Subst.keys, List.map_cons, List.mem_cons, not_or] at h
    have h2 : k ∉ Subst.keys rest := by simpa [Subst.keys] using h.2
    have h1 : ¬ e.1 = k := fun e2 => h.1 e2.symm
    simp [Subst.find?, h1, ih h2]

/-- Unfolding the union over an empty right dictionary. -/
theorem Subst.union_nil (l : Subst) : l.union [] = l := rfl

/-- Unfolding the union over a non-empty right dictionary. -/
theorem Subst.union_cons (l : Subst) (e : Nat × Ty) (r : List (Nat × Ty)) :
    Subst.union l (e :: r) = Subst.union (l.insert e.1 e.2) r := rfl

/-- Lookup through a union misses the right side when the key is not
among its keys. -/
theorem Subst.find?_union_not_mem (l r : Subst) (k : Nat)
    (h : k ∉ r.keys) : (l.union r).find? k = l.find? k := by
  induction r generalizing l with
  | nil => rfl
  | cons e rest ih =>
    simp only [Subst.keys, List.map_cons, List.mem_cons, not_or] at h
    rw [Subst.union_cons, ih (l.insert e.1 e.2) (by simpa [Subst.keys] using h.2),
      Subst.find?_insert_ne _ _ _ _ (fun e2 => h.1 e2.symm)]

/-- Lookup through a right-biased union: the right side wins where it
binds the key, the left side answers otherwise. -/
theorem Subst.find?_union (l r : Subst) (k : Nat) (hr : KeysNodup r) :
    (l.union r).find? k = ((r.find? k).elim (l.find? k) some) := by
  induction r generalizing l with
  | nil => rfl
  | cons e rest ih =>
    have hk : Subst.keys (e :: rest) = e.1 :: Subst.keys rest := rfl
    have hr2 : (e.1 :: Subst.keys rest).Nodup := by rw [← hk]; exact hr
    have hr1 : KeysNodup rest := (List.nodup_cons.mp hr2).2
    rw [Subst.union_cons]
    by_cases h : e.1 = k
    · have hnk : k ∉ Subst.keys rest := by
        rw [← h]; exact (List.nodup_cons.mp hr2).1
      rw [Subst.find?_union_not_mem _ _ _ hnk]
      subst h
      rw [Subst.find?_insert_self]
      simp [Subst.find?]
    · rw [ih (l.insert e.1 e.2) hr1, Subst.find?_insert_ne _ _ _ _ h]
      simp [Subst.find?, h]

/-- The accumulation loop is the identity on an empty pair list. -/
theorem unifyFold_nil (fuel ctr : Nat) (acc : Subst) :
    unifyFold fuel ctr acc [] = .ok acc ctr := by
  cases fuel <;> rfl

/-- C3 counterexample: merging `σ₁ = {0 ↦ Int}` with `σ₂ = {1 ↦ var 0}`
yields the entry `1 ↦ var 0` unchanged, whereas the claimed composition
would map `1` to `apply(σ₁, σ₂(1)) = Int`; `_merge_subs` does not apply
`σ₁` to the values of `σ₂`. -/
theorem mergeSubs_not_composition :
    mergeSubs 10 0 [(0, Ty.generic "Int" [])] [(1, Ty.tvar 0)]
      = UR.ok [(0, Ty.generic "Int" []), (1, Ty.tvar 0)] 0 ∧
    Subst.find? [(0, Ty.generic "Int" []), (1, Ty.tvar 0)] 1 = some (Ty.tvar 0) ∧
    substituteT 10 (Ty.tvar 0) [(0, Ty.generic "Int" [])]
      = some (Ty.generic "Int" []) ∧
    Ty.tvar 0 ≠ Ty.generic "Int" [] :=
  ⟨rfl, rfl, rfl, fun h => Ty.noConfusion h⟩

/-- C3 amended: on substitutions with no conflicting key (and a
dict-shaped right operand), `_merge_subs` returns the plain right-biased
dictionary union `σ₁ | σ₂`: its domain is the union of the domains, and
lookup answers with `σ₂(k)` where `σ₂` binds `k` and with `σ₁(k)`
otherwise — the values of `σ₂` are taken verbatim, without applying
`σ₁` to them; conflicting keys are additionally resolved by unifying
the two values and layering the solved substitution on top. -/
theorem mergeSubs_conflict_free_is_union (l r : Subst) (fuel ctr : Nat)
    (hconf : conflicts l r = []) (hr : KeysNodup r) :
    mergeSubs (fuel + 1) ctr l r = .ok (l.union r) ctr ∧
    ∀ k, (l.union r).find? k = ((r.find? k).elim (l.find? k) some) := by
  constructor
  · have h1 : unifyFold fuel ctr [] (conflicts l r) = .ok [] ctr := by
      rw [hconf]; exact unifyFold_nil fuel ctr []
    simp only [mergeSubs, h1]
    rw [Subst.union_nil]
  · intro k
    exact Subst.find?_union l r k hr

/-- Witness for the C3 amended theorem at the concrete conflict-free
pair `σ₁ = {0 ↦ Int}`, `σ₂ = {1 ↦ var 0}`. -/
theorem mergeSubs_conflict_free_is_union_witness :
    conflicts [(0, Ty.generic "Int" [])] [(1, Ty.tvar 0)] = [] ∧
    KeysNodup [(1, Ty.tvar 0)] ∧
    mergeSubs 10 0 [(0, Ty.generic "Int" [])] [(1, Ty.tvar 0)]
      = .ok (Subst.union [(0, Ty.generic "Int" [])] [(1, Ty.tvar 0)]) 0 :=
  ⟨rfl, by decide,
    (mergeSubs_conflict_free_is_union [(0, Ty.generic "Int" [])] [(1, Ty.tvar 0)]
      9 0 rfl (by decide)).1⟩
